import Mathlib

/-!
Verification of the secret-rotation subsystem of `go-banks`.

The development shallowly embeds the Go source of the subsystem:

* `internal/secrets/crypto.go` (`GenerateSecureSecret`, `EncryptSecret`,
  `DecryptSecret`), which uses SHA-256 key derivation, AES-256-GCM with a
  random nonce prepended to the sealed output, and standard base64;
* `internal/secrets/filesecretprovider.go` (`SecretEntry`, `SecretStore`,
  `GetSecret`, `GetAllSecrets`, `loadFromFile`, `createInitialSecret`,
  `handleRotateCommand`);
* `internal/secrets/tcpserver.go` (`handleConnection` per-line processing and
  `handleCommand`).

Representation choices:

* Go strings and byte slices are byte sequences; both are modelled as
  `List Nat` with the predicate `ValidBytes` (every element `< 256`).
* Base64 (`encoding/base64` StdEncoding) is implemented in full: alphabet
  mapping, 3-byte/4-char blocks, `=` padding, and a decoder that rejects
  malformed input — this is executable and proved to round-trip.
* SHA-256 and the AES-GCM cipher core are Go-standard-library primitives
  external to the repository.  They are modelled by executable stand-ins
  that keep the interface shape the repository's code relies on: a digest
  that is a fixed 32-byte function of the key material, and a seal/open pair
  where `open` recomputes and checks a 16-byte authentication tag over the
  data and inverts the keystream.  Nonce handling, length checks, base64
  framing, and all store logic are taken directly from the repository's
  source.
* Randomness (`crypto/rand`), fresh UUIDs, clock readings and file-write
  outcomes are nondeterministic inputs of the real code; they are passed to
  the embedded operations explicitly (`RotateEnv`).
-/

/-- Go byte strings: every element is a byte value. -/
def ValidBytes (l : List Nat) : Prop := ∀ b ∈ l, b < 256

instance (l : List Nat) : Decidable (ValidBytes l) :=
  List.decidableBAll _ l

/-- Base64 standard alphabet: sextet value to character code
(`A-Z`, `a-z`, `0-9`, `+`, `/`). -/
def b64EncChar (n : Nat) : Nat :=
  if n < 26 then 65 + n
  else if n < 52 then 97 + (n - 26)
  else if n < 62 then 48 + (n - 52)
  else if n = 62 then 43
  else 47

/-- Base64 standard alphabet: character code back to sextet value; `none` for
characters outside the alphabet (this includes the pad character `=`). -/
def b64DecChar (c : Nat) : Option Nat :=
  if 65 ≤ c ∧ c ≤ 90 then some (c - 65)
  else if 97 ≤ c ∧ c ≤ 122 then some (26 + (c - 97))
  else if 48 ≤ c ∧ c ≤ 57 then some (52 + (c - 48))
  else if c = 43 then some 62
  else if c = 47 then some 63
  else none

/-- `encoding/base64` StdEncoding encoding of a byte sequence, as the list of
character codes of the encoded text (61 is the pad character `=`). -/
def b64encode : List Nat → List Nat
  | [] => []
  | [b0] => [b64EncChar (b0 / 4), b64EncChar (b0 % 4 * 16), 61, 61]
  | [b0, b1] =>
      [b64EncChar (b0 / 4), b64EncChar (b0 % 4 * 16 + b1 / 16),
       b64EncChar (b1 % 16 * 4), 61]
  | b0 :: b1 :: b2 :: rest =>
      b64EncChar (b0 / 4) :: b64EncChar (b0 % 4 * 16 + b1 / 16) ::
      b64EncChar (b1 % 16 * 4 + b2 / 64) :: b64EncChar (b2 % 64) ::
      b64encode rest

/-- `encoding/base64` StdEncoding decoding: input must be a sequence of
4-character blocks, padding may appear only at the end of the final block,
nothing may follow it.  Returns `none` on malformed input. -/
def b64decode : List Nat → Option (List Nat)
  | [] => some []
  | c0 :: c1 :: c2 :: c3 :: rest =>
      match b64DecChar c0, b64DecChar c1 with
      | some s0, some s1 =>
        if c2 = 61 then
          if c3 = 61 ∧ rest = [] then some [s0 * 4 + s1 / 16] else none
        else
          match b64DecChar c2 with
          | some s2 =>
            if c3 = 61 then
              if rest = [] then some [s0 * 4 + s1 / 16, s1 % 16 * 16 + s2 / 4]
              else none
            else
              match b64DecChar c3 with
              | some s3 =>
                (b64decode rest).map
                  (fun bs => (s0 * 4 + s1 / 16) :: (s1 % 16 * 16 + s2 / 4) ::
                             (s2 % 4 * 64 + s3) :: bs)
              | none => none
          | none => none
      | _, _ => none
  | _ => none

/-- GCM nonce size used by Go's `cipher.NewGCM` (`gcm.NonceSize()`): 12 bytes. -/
def NonceSize : Nat := 12

/-- GCM authentication-tag size (`gcm.Overhead()`): 16 bytes. -/
def TagSize : Nat := 16

/-- Model of the SHA-256 digest from Go's `crypto/sha256` (`sha256.Sum256`),
which is outside this repository.  An executable stand-in: a fixed function of
the key material producing a 32-byte digest — the repository's code relies
only on this shape (deterministic fixed-width key derivation). -/
def sha256model (km : List Nat) : List Nat :=
  (List.range 32).map (fun i => (km.sum * 31 + km.length * 17 + i * 13 + 7) % 256)

/-- Model keystream byte `i` of the AES-CTR keystream inside GCM. -/
def ksByte (key nonce : List Nat) (i : Nat) : Nat :=
  (key.sum + nonce.sum * 2 + i * 5 + 1) % 256

/-- XOR a byte sequence against the model keystream, starting at index `i`.
This is both the encryption and the decryption direction (XOR is an
involution), as in real AES-CTR/GCM. -/
def xorKs (key nonce : List Nat) : Nat → List Nat → List Nat
  | _, [] => []
  | i, b :: bs => (b ^^^ ksByte key nonce i) :: xorKs key nonce (i + 1) bs

/-- Model of the 16-byte GCM authentication tag over the ciphertext. -/
def gcmTag (key nonce data : List Nat) : List Nat :=
  (List.range TagSize).map
    (fun i => (key.sum * 3 + nonce.sum * 5 + data.sum * 7 + data.length * 11 + i) % 256)

/-- Model of `gcm.Seal(nil, nonce, plaintext, nil)`: keystream-encrypted
plaintext followed by the authentication tag. -/
def gcmSeal (key nonce pt : List Nat) : List Nat :=
  xorKs key nonce 0 pt ++ gcmTag key nonce (xorKs key nonce 0 pt)

/-- Model of `gcm.Open(nil, nonce, ct, nil)`: split off the trailing tag,
recompute and check it, and undo the keystream; `none` on authentication
failure or truncated input. -/
def gcmOpen (key nonce ct : List Nat) : Option (List Nat) :=
  if ct.length < TagSize then none
  else if ct.drop (ct.length - TagSize) = gcmTag key nonce (ct.take (ct.length - TagSize))
  then some (xorKs key nonce 0 (ct.take (ct.length - TagSize)))
  else none

/-- Go `GenerateSecureSecret` (crypto.go): checks the byte length is positive,
draws that many random bytes from `crypto/rand` (modelled as the
nondeterministic input `randBytes`, `none` meaning the entropy call failed),
and returns them base64-encoded. -/
def GenerateSecureSecret (byteLength : Int) (randBytes : Option (List Nat)) :
    Except String (List Nat) :=
  if byteLength ≤ 0 then .error ("byte length must be positive")
  else
    match randBytes with
    | none => .error ("failed to generate random bytes")
    | some bytes => .ok (b64encode bytes)

/-- Go `EncryptSecret` (crypto.go): derive the AES key by hashing the old
secret with SHA-256, generate a random nonce (`none` meaning `rand.Read`
failed), seal the new secret with AES-GCM, prepend the nonce, and
base64-encode.  `aes.NewCipher` and `cipher.NewGCM` cannot fail for a 32-byte
SHA-256 key, so the nonce draw is the only fallible step. -/
def EncryptSecret (newSecret oldSecret : List Nat) (nonceDraw : Option (List Nat)) :
    Except String (List Nat) :=
  match nonceDraw with
  | none => .error ("failed to generate nonce")
  | some nonce =>
      .ok (b64encode (nonce ++ gcmSeal (sha256model oldSecret) nonce newSecret))

/-- Go `DecryptSecret` (crypto.go): base64-decode, derive the key by hashing
the key material with SHA-256, split the nonce off the front, and
authenticate-and-decrypt with AES-GCM.  The three failure modes are distinct:
malformed base64, payload shorter than one nonce, and authentication
failure. -/
def DecryptSecret (encryptedSecret key : List Nat) : Except String (List Nat) :=
  match b64decode encryptedSecret with
  | none => .error ("failed to decode base64")
  | some ciphertext =>
      if ciphertext.length < NonceSize then .error ("ciphertext too short")
      else
        match gcmOpen (sha256model key) (ciphertext.take NonceSize)
                      (ciphertext.drop NonceSize) with
        | none => .error ("failed to decrypt")
        | some plaintext => .ok plaintext

/-- Go `SecretEntry` (filesecretprovider.go): one secret with metadata.
`id` stands for the opaque UUID string, `createdAt` for the `time.Time`
reading; `rotatedAt` is the optional rotation timestamp (`*time.Time`). -/
structure SecretEntry where
  id : Nat
  secret : List Nat
  createdAt : Nat
  rotatedAt : Option Nat
deriving DecidableEq, Repr

/-- Go `SecretStore` (filesecretprovider.go): the current entry plus the
ordered deprecated entries (oldest first). -/
structure SecretStore where
  current : SecretEntry
  deprecated : List SecretEntry
deriving DecidableEq, Repr

/-- Go `FileSecretProvider.GetSecret`: under the read lock, fail if the
current secret is the empty string, otherwise return it. -/
def GetSecret (store : SecretStore) : Except String (List Nat) :=
  if store.current.secret = [] then .error ("no active secret available")
  else .ok store.current.secret

/-- Go `FileSecretProvider.GetAllSecrets`: under the read lock, return the
current secret string, the list of deprecated secret strings, and a `nil`
error (modelled as the always-`none` third component). -/
def GetAllSecrets (store : SecretStore) :
    List Nat × List (List Nat) × Option String :=
  (store.current.secret, store.deprecated.map SecretEntry.secret, none)

/-- Go `FileSecretProvider.loadFromFile`: `json.Unmarshal` of the file
contents can produce any `SecretStore` value (the file is external input at
startup); the only validation applied afterwards is that the current secret
is non-empty.  The argument is the already-unmarshalled store. -/
def loadFromFile (parsed : SecretStore) : Except String SecretStore :=
  if parsed.current.secret = [] then .error ("no current secret found in file")
  else .ok parsed

/-- Go `FileSecretProvider.createInitialSecret`: generate a fresh 32-byte
secret, install it as `current` with a fresh id and the current time, no
`rotated_at`, and an empty deprecated list.  `randBytes` is the outcome of
the `crypto/rand` draw, `id`/`now` the fresh UUID and clock reading. -/
def createInitialSecret (randBytes : Option (List Nat)) (id now : Nat) :
    Except String SecretStore :=
  match GenerateSecureSecret 32 randBytes with
  | .error e => .error e
  | .ok secret =>
      .ok { current := { id := id, secret := secret, createdAt := now, rotatedAt := none }
            deprecated := [] }

/-- The nondeterministic inputs of one `handleRotateCommand` call: the
`crypto/rand` draw for the new 32-byte secret, the `crypto/rand` draw for the
GCM nonce (`none` models an entropy failure), the fresh UUID, the clock
reading, and whether the `os.WriteFile` in `saveToFile` succeeds. -/
structure RotateEnv where
  randBytes : Option (List Nat)
  nonceBytes : Option (List Nat)
  newId : Nat
  now : Nat
  saveOk : Bool
deriving DecidableEq, Repr

/-- Result of one `handleRotateCommand` call: the in-memory store afterwards,
the store value durably written to the file (`none` when no successful write
happened), and the returned ciphertext or error. -/
structure RotateOutcome where
  store : SecretStore
  persisted : Option SecretStore
  result : Except String (List Nat)

/-- Go `FileSecretProvider.handleRotateCommand`, under the write lock:
generate a new secret (abort unchanged on failure), encrypt it under the
still-current secret (abort unchanged on failure), stamp the current entry's
`rotated_at`, append it to `deprecated`, install the new entry as `current`,
evict the oldest deprecated entries down to `maxDeprecated` by keeping the
most recent ones, then save to file — a failed save returns an error but
leaves the in-memory mutation in place. -/
def handleRotateCommand (maxDeprecated : Nat) (store : SecretStore) (env : RotateEnv) :
    RotateOutcome :=
  match GenerateSecureSecret 32 env.randBytes with
  | .error _ => { store := store, persisted := none
                  result := .error ("failed to generate new secret") }
  | .ok newSecret =>
    match EncryptSecret newSecret store.current.secret env.nonceBytes with
    | .error _ => { store := store, persisted := none
                    result := .error ("failed to encrypt new secret") }
    | .ok encryptedResponse =>
      let retired : SecretEntry := { store.current with rotatedAt := some env.now }
      let dep := store.deprecated ++ [retired]
      let newStore : SecretStore :=
        { current := { id := env.newId, secret := newSecret,
                       createdAt := env.now, rotatedAt := none }
          deprecated :=
            if maxDeprecated < dep.length then dep.drop (dep.length - maxDeprecated)
            else dep }
      if env.saveOk then
        { store := newStore, persisted := some newStore, result := .ok encryptedResponse }
      else
        { store := newStore, persisted := none
          result := .error ("failed to save rotated secrets") }

/-- Iterated rotation: thread the in-memory store through a sequence of
rotation commands. -/
def rotateMany (maxDeprecated : Nat) (store : SecretStore) : List RotateEnv → SecretStore
  | [] => store
  | e :: es => rotateMany maxDeprecated (handleRotateCommand maxDeprecated store e).store es

/-- A rotation command whose generation, encryption and save steps all
succeed. -/
def envOk (e : RotateEnv) : Bool :=
  e.randBytes.isSome && e.nonceBytes.isSome && e.saveOk

/-- The entries retired (moved to `deprecated`) by a sequence of successful
rotations, in chronological order: rotation `k` retires the entry that is
current just before it, stamped with that rotation's clock reading. -/
def retiredEntries (maxDeprecated : Nat) (store : SecretStore) :
    List RotateEnv → List SecretEntry
  | [] => []
  | e :: es =>
      { store.current with rotatedAt := some e.now } ::
      retiredEntries maxDeprecated (handleRotateCommand maxDeprecated store e).store es

/-- The last (most recent) `n` elements of a list. -/
def lastN (n : Nat) (l : List α) : List α := l.drop (l.length - n)

/-- Store states reachable after provider construction: fresh creation
(`createInitialSecret`), a successful load from a persistence file
(`loadFromFile` applied to whatever `json.Unmarshal` produced from the file's
contents), and closure under rotation commands. -/
inductive Reachable (maxDeprecated : Nat) : SecretStore → Prop
  | fresh (randBytes : Option (List Nat)) (id now : Nat) (s : SecretStore) :
      createInitialSecret randBytes id now = .ok s → Reachable maxDeprecated s
  | loaded (parsed s : SecretStore) :
      loadFromFile parsed = .ok s → Reachable maxDeprecated s
  | rotated (s : SecretStore) (e : RotateEnv) :
      Reachable maxDeprecated s →
      Reachable maxDeprecated (handleRotateCommand maxDeprecated s e).store

/-- The entry/timestamp invariant of the spec's data model: the current entry
never has `rotated_at` set, and every deprecated entry has it set. -/
def EntriesInv (s : SecretStore) : Prop :=
  s.current.rotatedAt = none ∧ ∀ en ∈ s.deprecated, en.rotatedAt ≠ none

instance (s : SecretStore) : Decidable (EntriesInv s) := by
  unfold EntriesInv
  exact instDecidableAnd

/-- A store as `json.Unmarshal` can produce it from a persistence file holding
two deprecated entries; its current secret is non-empty, so `loadFromFile`
accepts it. -/
def overfullStore : SecretStore :=
  { current := { id := 2, secret := [98], createdAt := 0, rotatedAt := none }
    deprecated := [{ id := 0, secret := [97], createdAt := 0, rotatedAt := some 1 },
                   { id := 1, secret := [99], createdAt := 0, rotatedAt := some 2 }] }

/-- A store as `json.Unmarshal` can produce it from a persistence file whose
current entry carries a `rotated_at` timestamp and whose deprecated entry has
none; its current secret is non-empty, so `loadFromFile` accepts it. -/
def loadedBadStore : SecretStore :=
  { current := { id := 0, secret := [97], createdAt := 0, rotatedAt := some 3 }
    deprecated := [{ id := 1, secret := [98], createdAt := 0, rotatedAt := none }] }

/-- A store whose current secret is the empty string — the state in which
`GetSecret` fails. -/
def emptySecretStore : SecretStore :=
  { current := { id := 0, secret := [], createdAt := 0, rotatedAt := none }
    deprecated := [] }

/-- Go `RotationCommand` (tcpserver.go): the JSON command `{action: string}`. -/
structure RotationCommand where
  action : String
deriving DecidableEq, Repr

/-- Go `RotationResponse` (tcpserver.go): the JSON response line.  Go's
`omitempty` drops empty fields from the serialized form; the struct fields
themselves are modelled. -/
structure RotationResponse where
  success : Bool
  encryptedData : String
  error : String
deriving DecidableEq, Repr

/-- ASCII lower-casing of one character, as `strings.ToLower` /
`strings.EqualFold` act on the ASCII-only strings involved here. -/
def lowerChar (c : Char) : Char :=
  if 65 ≤ c.toNat ∧ c.toNat ≤ 90 then Char.ofNat (c.toNat + 32) else c

/-- ASCII lower-casing of a string. -/
def lowerString (s : String) : String := ⟨s.data.map lowerChar⟩

/-- Go `TCPRotationServer.handleCommand`: switch on the lower-cased action;
`rotate` invokes the injected handler and wraps its outcome, anything else
produces the `Unknown command` failure with the original-case action.  The
handler's outcome is passed in explicitly (`handlerResult`). -/
def handleCommand (handlerResult : Except String String) (cmd : RotationCommand) :
    RotationResponse :=
  if lowerString cmd.action = ("rotate") then
    match handlerResult with
    | .error e => { success := false, encryptedData := "", error := e }
    | .ok d => { success := true, encryptedData := d, error := "" }
  else
    { success := false, encryptedData := ""
      error := ("Unknown command: ") ++ cmd.action }

/-- One iteration of the read loop in Go
`TCPRotationServer.handleConnection`, for one line.  `line` is the line after
`strings.TrimSpace`; an empty line is skipped with no response.  `parsed` is
the outcome of `json.Unmarshal` on the line (`none` = parse error), which is
external input to this embedding; on parse failure the legacy fallback treats
a line equal to `rotate` case-insensitively (`strings.EqualFold`) as the
rotate command, and everything else produces the `Invalid command format`
response.  The response (if any) is written back and the loop continues with
the next line. -/
def processLine (line : String) (parsed : Option RotationCommand)
    (handlerResult : Except String String) : Option RotationResponse :=
  if line = ("") then none
  else
    match parsed with
    | some cmd => some (handleCommand handlerResult cmd)
    | none =>
        if lowerString line = ("rotate") then
          some (handleCommand handlerResult { action := ("rotate") })
        else
          some { success := false, encryptedData := ""
                 error := ("Invalid command format") }

/-- The responses a connection produces for a sequence of lines, each line
carrying its parse outcome and the handler outcome at the moment it is
dispatched. -/
def connectionResponses
    (items : List (String × Option RotationCommand × Except String String)) :
    List RotationResponse :=
  items.filterMap (fun t => processLine t.1 t.2.1 t.2.2)

/-- Witness data: a 32-byte random draw, a 12-byte nonce draw, a store with a
one-byte current secret, and rotation commands with every step succeeding,
with the nonce draw failing, and with the file write failing. -/
def wBytes : List Nat := List.replicate 32 0

def wNonce : List Nat := [0, 1, 2, 3, 4, 5, 6, 7, 8, 9, 10, 11]

def wStore : SecretStore :=
  { current := { id := 1, secret := [97], createdAt := 0, rotatedAt := none }
    deprecated := [] }

def wEnv : RotateEnv :=
  { randBytes := some wBytes, nonceBytes := some wNonce, newId := 9, now := 5,
    saveOk := true }

def wEnv2 : RotateEnv :=
  { randBytes := some (List.replicate 32 1), nonceBytes := some wNonce, newId := 10,
    now := 6, saveOk := true }

def wEnvGenFail : RotateEnv :=
  { randBytes := none, nonceBytes := some wNonce, newId := 9, now := 5, saveOk := true }

def wEnvNoSave : RotateEnv :=
  { randBytes := some wBytes, nonceBytes := some wNonce, newId := 9, now := 5,
    saveOk := false }

theorem b64DecChar_b64EncChar : ∀ n < 64, b64DecChar (b64EncChar n) = some n := by
  decide

theorem b64EncChar_ne_pad : ∀ n < 64, b64EncChar n ≠ 61 := by
  decide

theorem b64EncChar_lt : ∀ n < 64, b64EncChar n < 256 := by
  decide

theorem validBytes_cons {b : Nat} {l : List Nat} (h : ValidBytes (b :: l)) :
    b < 256 ∧ ValidBytes l := by
  refine ⟨h b (by simp), fun x hx => h x (by simp [hx])⟩

/-- Decoding inverts encoding on byte sequences. -/
theorem b64decode_b64encode : ∀ l : List Nat, ValidBytes l → b64decode (b64encode l) = some l
  | [], _ => by simp [b64encode, b64decode]
  | [b0], h => by
      have hb0 : b0 < 256 := (validBytes_cons h).1
      have h0 := b64DecChar_b64EncChar (b0 / 4) (by omega)
      have h1 := b64DecChar_b64EncChar (b0 % 4 * 16) (by omega)
      simp only [b64encode, b64decode, h0, h1]
      norm_num
      omega
  | [b0, b1], h => by
      have hb0 : b0 < 256 := (validBytes_cons h).1
      have hb1 : b1 < 256 := (validBytes_cons (validBytes_cons h).2).1
      have h0 := b64DecChar_b64EncChar (b0 / 4) (by omega)
      have h1 := b64DecChar_b64EncChar (b0 % 4 * 16 + b1 / 16) (by omega)
      have h2 := b64DecChar_b64EncChar (b1 % 16 * 4) (by omega)
      have hne : b64EncChar (b1 % 16 * 4) ≠ 61 := b64EncChar_ne_pad _ (by omega)
      simp only [b64encode, b64decode, h0, h1, h2, if_neg hne]
      norm_num
      constructor
      · omega
      · omega
  | b0 :: b1 :: b2 :: rest, h => by
      have hb0 : b0 < 256 := (validBytes_cons h).1
      have h' := (validBytes_cons h).2
      have hb1 : b1 < 256 := (validBytes_cons h').1
      have h'' := (validBytes_cons h').2
      have hb2 : b2 < 256 := (validBytes_cons h'').1
      have hrest : ValidBytes rest := (validBytes_cons h'').2
      have h0 := b64DecChar_b64EncChar (b0 / 4) (by omega)
      have h1 := b64DecChar_b64EncChar (b0 % 4 * 16 + b1 / 16) (by omega)
      have h2 := b64DecChar_b64EncChar (b1 % 16 * 4 + b2 / 64) (by omega)
      have h3 := b64DecChar_b64EncChar (b2 % 64) (by omega)
      have hne2 : b64EncChar (b1 % 16 * 4 + b2 / 64) ≠ 61 :=
        b64EncChar_ne_pad _ (by omega)
      have hne3 : b64EncChar (b2 % 64) ≠ 61 := b64EncChar_ne_pad _ (by omega)
      have ih := b64decode_b64encode rest hrest
      simp only [b64encode, b64decode, h0, h1, h2, h3, if_neg hne2, if_neg hne3, ih,
        Option.map_some]
      norm_num
      refine ⟨by omega, by omega, by omega⟩

/-- Encoded text consists of byte values (alphabet characters or `=`). -/
theorem b64encode_valid : ∀ l : List Nat, ValidBytes l → ValidBytes (b64encode l)
  | [], _ => by simp [b64encode, ValidBytes]
  | [b0], h => by
      have hb0 : b0 < 256 := (validBytes_cons h).1
      have e0 := b64EncChar_lt (b0 / 4) (by omega)
      have e1 := b64EncChar_lt (b0 % 4 * 16) (by omega)
      simp [b64encode, ValidBytes]
      exact ⟨e0, e1⟩
  | [b0, b1], h => by
      have hb0 : b0 < 256 := (validBytes_cons h).1
      have hb1 : b1 < 256 := (validBytes_cons (validBytes_cons h).2).1
      have e0 := b64EncChar_lt (b0 / 4) (by omega)
      have e1 := b64EncChar_lt (b0 % 4 * 16 + b1 / 16) (by omega)
      have e2 := b64EncChar_lt (b1 % 16 * 4) (by omega)
      simp [b64encode, ValidBytes]
      exact ⟨e0, e1, e2⟩
  | b0 :: b1 :: b2 :: rest, h => by
      have hb0 : b0 < 256 := (validBytes_cons h).1
      have h' := (validBytes_cons h).2
      have hb1 : b1 < 256 := (validBytes_cons h').1
      have h'' := (validBytes_cons h').2
      have hb2 : b2 < 256 := (validBytes_cons h'').1
      have hrest : ValidBytes rest := (validBytes_cons h'').2
      have e0 := b64EncChar_lt (b0 / 4) (by omega)
      have e1 := b64EncChar_lt (b0 % 4 * 16 + b1 / 16) (by omega)
      have e2 := b64EncChar_lt (b1 % 16 * 4 + b2 / 64) (by omega)
      have e3 := b64EncChar_lt (b2 % 64) (by omega)
      have ih := b64encode_valid rest hrest
      intro x hx
      simp only [b64encode, List.mem_cons] at hx
      rcases hx with rfl | rfl | rfl | rfl | hx
      · exact e0
      · exact e1
      · exact e2
      · exact e3
      · exact ih x hx

/-- A nonempty byte sequence encodes to nonempty text. -/
theorem b64encode_ne_nil : ∀ l : List Nat, l ≠ [] → b64encode l ≠ []
  | [], h => absurd rfl h
  | [_], _ => by simp [b64encode]
  | [_, _], _ => by simp [b64encode]
  | _ :: _ :: _ :: _, _ => by simp [b64encode]

theorem xorKs_length (key nonce : List Nat) :
    ∀ (i : Nat) (bs : List Nat), (xorKs key nonce i bs).length = bs.length
  | _, [] => rfl
  | i, _ :: bs => by simp [xorKs, xorKs_length key nonce (i + 1) bs]

theorem xorKs_xorKs (key nonce : List Nat) :
    ∀ (i : Nat) (bs : List Nat), xorKs key nonce i (xorKs key nonce i bs) = bs
  | _, [] => rfl
  | i, b :: bs => by
      simp only [xorKs, xorKs_xorKs key nonce (i + 1) bs, List.cons.injEq, and_true]
      rw [Nat.xor_assoc, Nat.xor_self, Nat.xor_zero]

theorem ksByte_lt (key nonce : List Nat) (i : Nat) : ksByte key nonce i < 256 :=
  Nat.mod_lt _ (by omega)

theorem xorKs_valid (key nonce : List Nat) :
    ∀ (i : Nat) (bs : List Nat), ValidBytes bs → ValidBytes (xorKs key nonce i bs)
  | _, [], _ => by intro x hx; simp [xorKs] at hx
  | i, b :: bs, h => by
      intro x hx
      simp only [xorKs, List.mem_cons] at hx
      rcases hx with rfl | hx
      · have hb : b < 256 := (validBytes_cons h).1
        have h2 := ksByte_lt key nonce i
        have h256 : (256 : Nat) = 2 ^ 8 := by norm_num
        rw [h256] at hb h2 ⊢
        exact Nat.xor_lt_two_pow hb h2
      · exact xorKs_valid key nonce (i + 1) bs (validBytes_cons h).2 x hx

theorem gcmTag_valid (key nonce data : List Nat) : ValidBytes (gcmTag key nonce data) := by
  intro x hx
  simp only [gcmTag, List.mem_map] at hx
  obtain ⟨i, _, rfl⟩ := hx
  exact Nat.mod_lt _ (by omega)

theorem gcmTag_length (key nonce data : List Nat) :
    (gcmTag key nonce data).length = TagSize := by
  simp [gcmTag]

theorem gcmSeal_valid (key nonce pt : List Nat) (h : ValidBytes pt) :
    ValidBytes (gcmSeal key nonce pt) := by
  intro x hx
  simp only [gcmSeal, List.mem_append] at hx
  rcases hx with hx | hx
  · exact xorKs_valid key nonce 0 pt h x hx
  · exact gcmTag_valid key nonce _ x hx

/-- Opening a sealed message with the same key and nonce recovers the
plaintext. -/
theorem gcmOpen_gcmSeal (key nonce pt : List Nat) :
    gcmOpen key nonce (gcmSeal key nonce pt) = some pt := by
  have hlen : (gcmSeal key nonce pt).length = pt.length + TagSize := by
    simp [gcmSeal, xorKs_length, gcmTag_length]
  have hnotlt : ¬ (gcmSeal key nonce pt).length < TagSize := by omega
  have hidx : (gcmSeal key nonce pt).length - TagSize = (xorKs key nonce 0 pt).length := by
    rw [hlen, xorKs_length]; omega
  unfold gcmOpen
  rw [if_neg hnotlt, hidx]
  rw [show gcmSeal key nonce pt = xorKs key nonce 0 pt ++ gcmTag key nonce (xorKs key nonce 0 pt) from rfl]
  rw [List.take_left, List.drop_left, if_pos rfl, xorKs_xorKs]

/-- Core round trip: decrypting the exact ciphertext produced by
`EncryptSecret` with the same key material recovers the plaintext. -/
theorem DecryptSecret_encrypted (s k nonce : List Nat) (hs : ValidBytes s)
    (hn : ValidBytes nonce) (hlen : nonce.length = NonceSize) :
    DecryptSecret (b64encode (nonce ++ gcmSeal (sha256model k) nonce s)) k = .ok s := by
  have hvalid : ValidBytes (nonce ++ gcmSeal (sha256model k) nonce s) := by
    intro x hx
    rcases List.mem_append.mp hx with hx | hx
    · exact hn x hx
    · exact gcmSeal_valid _ nonce s hs x hx
  have hdec := b64decode_b64encode _ hvalid
  have hctlen : (nonce ++ gcmSeal (sha256model k) nonce s).length
      = NonceSize + (s.length + TagSize) := by
    simp [gcmSeal, xorKs_length, gcmTag_length, hlen]
  have hnotlt : ¬ (nonce ++ gcmSeal (sha256model k) nonce s).length < NonceSize := by
    omega
  have htake : (nonce ++ gcmSeal (sha256model k) nonce s).take NonceSize = nonce :=
    List.take_left' hlen
  have hdrop : (nonce ++ gcmSeal (sha256model k) nonce s).drop NonceSize
      = gcmSeal (sha256model k) nonce s := by
    rw [← hlen, List.drop_left]
  unfold DecryptSecret
  simp only [hdec, if_neg hnotlt, htake, hdrop, gcmOpen_gcmSeal]

theorem evict_eq_lastN (maxDeprecated : Nat) (l : List α) :
    (if maxDeprecated < l.length then l.drop (l.length - maxDeprecated) else l)
      = lastN maxDeprecated l := by
  unfold lastN
  by_cases h : maxDeprecated < l.length
  · rw [if_pos h]
  · rw [if_neg h]
    have h0 : l.length - maxDeprecated = 0 := by omega
    rw [h0, List.drop_zero]

theorem lastN_length_le (n : Nat) (l : List α) : (lastN n l).length ≤ n := by
  simp [lastN, List.length_drop]
  omega

theorem lastN_append_lastN (n : Nat) (l l2 : List α) :
    lastN n (lastN n l ++ l2) = lastN n (l ++ l2) := by
  unfold lastN
  rcases le_or_lt l.length n with h | h
  · have h0 : l.length - n = 0 := by omega
    rw [h0, List.drop_zero]
  · rw [List.drop_append_eq_append_drop, List.drop_append_eq_append_drop, List.drop_drop]
    congr 1
    · congr 1
      simp only [List.length_append, List.length_drop]
      omega
    · congr 1
      simp only [List.length_append, List.length_drop]
      omega

theorem genSecret_some (bs : List Nat) :
    GenerateSecureSecret 32 (some bs) = .ok (b64encode bs) := by
  unfold GenerateSecureSecret
  norm_num

theorem genSecret_none :
    GenerateSecureSecret 32 none = .error ("failed to generate random bytes") := by
  unfold GenerateSecureSecret
  norm_num

/-- Characterization of a rotation whose generation and encryption succeed
(regardless of whether the save succeeds): the in-memory store afterwards. -/
theorem rotate_store_eq (maxDeprecated : Nat) (store : SecretStore) (e : RotateEnv)
    (bs nonce : List Nat) (h1 : e.randBytes = some bs) (h2 : e.nonceBytes = some nonce) :
    (handleRotateCommand maxDeprecated store e).store =
      { current := { id := e.newId, secret := b64encode bs,
                     createdAt := e.now, rotatedAt := none }
        deprecated := lastN maxDeprecated
          (store.deprecated ++ [{ store.current with rotatedAt := some e.now }]) } := by
  unfold handleRotateCommand
  rw [h1, h2, genSecret_some]
  simp only [EncryptSecret]
  rw [← evict_eq_lastN]
  cases e.saveOk <;> simp

/-- Characterization of a rotation's returned ciphertext when generation,
encryption and save all succeed. -/
theorem rotate_result_eq (maxDeprecated : Nat) (store : SecretStore) (e : RotateEnv)
    (bs nonce : List Nat) (h1 : e.randBytes = some bs) (h2 : e.nonceBytes = some nonce)
    (h3 : e.saveOk = true) :
    (handleRotateCommand maxDeprecated store e).result
      = .ok (b64encode (nonce ++ gcmSeal (sha256model store.current.secret) nonce
          (b64encode bs))) := by
  unfold handleRotateCommand
  rw [h1, h2, genSecret_some]
  simp only [EncryptSecret]
  rw [h3]
  simp

theorem retiredEntries_length (maxDeprecated : Nat) :
    ∀ (envs : List RotateEnv) (store : SecretStore),
      (retiredEntries maxDeprecated store envs).length = envs.length
  | [], _ => rfl
  | e :: es, store => by
      simp [retiredEntries, retiredEntries_length maxDeprecated es]

/-- Main rotation-sequence lemma: after any number of successful rotations,
the deprecated list is exactly the most recent `maxDeprecated` elements of
the starting deprecated list followed by the chronologically retired
entries. -/
theorem rotateMany_deprecated (maxDeprecated : Nat) :
    ∀ (envs : List RotateEnv) (store : SecretStore),
      (∀ e ∈ envs, envOk e = true) →
      store.deprecated.length ≤ maxDeprecated →
      (rotateMany maxDeprecated store envs).deprecated
        = lastN maxDeprecated (store.deprecated ++ retiredEntries maxDeprecated store envs)
  | [], store, _, hlen => by
      simp only [rotateMany, retiredEntries, List.append_nil, lastN]
      have h0 : store.deprecated.length - maxDeprecated = 0 := by omega
      rw [h0, List.drop_zero]
  | e :: es, store, hok, hlen => by
      have he : envOk e = true := hok e (by simp)
      simp only [envOk, Bool.and_eq_true, Option.isSome_iff_exists] at he
      obtain ⟨⟨⟨bs, hbs⟩, nn, hnn⟩, _⟩ := he
      have hstep := rotate_store_eq maxDeprecated store e bs nn hbs hnn
      have hdeplen :
          ((handleRotateCommand maxDeprecated store e).store).deprecated.length
            ≤ maxDeprecated := by
        rw [hstep]
        exact lastN_length_le _ _
      have ih := rotateMany_deprecated maxDeprecated es
        (handleRotateCommand maxDeprecated store e).store
        (fun x hx => hok x (by simp [hx])) hdeplen
      simp only [rotateMany, retiredEntries]
      rw [ih, hstep]
      simp only
      rw [lastN_append_lastN]
      congr 1
      rw [List.append_assoc]
      simp only [List.singleton_append]

theorem rotate_gen_fail (maxDeprecated : Nat) (store : SecretStore) (e : RotateEnv)
    (h : e.randBytes = none) :
    handleRotateCommand maxDeprecated store e
      = { store := store, persisted := none
          result := .error ("failed to generate new secret") } := by
  unfold handleRotateCommand
  rw [h, genSecret_none]

theorem rotate_enc_fail (maxDeprecated : Nat) (store : SecretStore) (e : RotateEnv)
    (bs : List Nat) (h1 : e.randBytes = some bs) (h2 : e.nonceBytes = none) :
    handleRotateCommand maxDeprecated store e
      = { store := store, persisted := none
          result := .error ("failed to encrypt new secret") } := by
  unfold handleRotateCommand
  rw [h1, genSecret_some, h2]
  simp [EncryptSecret]

theorem rotate_save_fail (maxDeprecated : Nat) (store : SecretStore) (e : RotateEnv)
    (bs nonce : List Nat) (h1 : e.randBytes = some bs) (h2 : e.nonceBytes = some nonce)
    (h3 : e.saveOk = false) :
    (handleRotateCommand maxDeprecated store e).persisted = none ∧
    (handleRotateCommand maxDeprecated store e).result
      = .error ("failed to save rotated secrets") := by
  unfold handleRotateCommand
  rw [h1, h2, genSecret_some]
  simp [EncryptSecret, h3]

theorem rotate_persisted_of_saveOk (maxDeprecated : Nat) (store : SecretStore)
    (e : RotateEnv) (bs nonce : List Nat) (h1 : e.randBytes = some bs)
    (h2 : e.nonceBytes = some nonce) (h3 : e.saveOk = true) :
    (handleRotateCommand maxDeprecated store e).persisted
      = some (handleRotateCommand maxDeprecated store e).store := by
  unfold handleRotateCommand
  rw [h1, h2, genSecret_some]
  simp [EncryptSecret, h3]

theorem createInitial_eq (r : Option (List Nat)) (id now : Nat) (s : SecretStore)
    (h : createInitialSecret r id now = .ok s) :
    ∃ bs, r = some bs ∧
      s = { current := { id := id, secret := b64encode bs, createdAt := now,
                         rotatedAt := none }
            deprecated := [] } := by
  rcases r with _ | bs
  · rw [createInitialSecret, genSecret_none] at h
    simp at h
  · refine ⟨bs, rfl, ?_⟩
    rw [createInitialSecret, genSecret_some] at h
    simp at h
    exact h.symm

theorem mem_lastN {x : α} {n : Nat} {l : List α} (h : x ∈ lastN n l) : x ∈ l :=
  List.mem_of_mem_drop h

theorem getLast?_lastN (n : Nat) (hn : 1 ≤ n) (l : List α) (r : α) :
    (lastN n (l ++ [r])).getLast? = some r := by
  unfold lastN
  have hk : (l ++ [r]).length - n ≤ l.length := by
    simp only [List.length_append, List.length_singleton]
    omega
  rw [List.drop_append_of_le_length hk, List.getLast?_concat]

theorem rotate_dep_le (maxDeprecated : Nat) (store : SecretStore) (e : RotateEnv)
    (h : store.deprecated.length ≤ maxDeprecated) :
    ((handleRotateCommand maxDeprecated store e).store).deprecated.length
      ≤ maxDeprecated := by
  rcases hg : e.randBytes with _ | bs
  · rw [rotate_gen_fail maxDeprecated store e hg]
    exact h
  · rcases hn : e.nonceBytes with _ | nn
    · rw [rotate_enc_fail maxDeprecated store e bs hg hn]
      exact h
    · rw [rotate_store_eq maxDeprecated store e bs nn hg hn]
      exact lastN_length_le _ _

theorem rotate_entries_inv (maxDeprecated : Nat) (store : SecretStore) (e : RotateEnv)
    (h : EntriesInv store) :
    EntriesInv (handleRotateCommand maxDeprecated store e).store := by
  rcases hg : e.randBytes with _ | bs
  · rw [rotate_gen_fail maxDeprecated store e hg]
    exact h
  · rcases hn : e.nonceBytes with _ | nn
    · rw [rotate_enc_fail maxDeprecated store e bs hg hn]
      exact h
    · rw [rotate_store_eq maxDeprecated store e bs nn hg hn]
      refine ⟨rfl, ?_⟩
      intro en hen
      have hen' := mem_lastN hen
      rcases List.mem_append.mp hen' with hmem | hmem
      · exact h.2 en hmem
      · simp only [List.mem_singleton] at hmem
        rw [hmem]
        simp

/-- C1: for every store state whose current secret is `s_old`, a successful
rotation returns a base64 ciphertext `c` such that the post-rotation current
secret returned by `GetSecret` differs from `s_old`, and `DecryptSecret c
s_old` succeeds and yields exactly that post-rotation `GetSecret` value.  The
random draws are explicit inputs; `hfresh` states that the freshly drawn
secret differs from the old one, which proper randomness guarantees except
with negligible probability. -/
theorem rotation_changes_current_and_recovers
    (maxDeprecated : Nat) (store : SecretStore) (e : RotateEnv) (bs nonce : List Nat)
    (h1 : e.randBytes = some bs) (h2 : e.nonceBytes = some nonce) (h3 : e.saveOk = true)
    (hbs : ValidBytes bs) (hbslen : bs.length = 32)
    (hn : ValidBytes nonce) (hnlen : nonce.length = NonceSize)
    (hfresh : b64encode bs ≠ store.current.secret) :
    ∃ c, (handleRotateCommand maxDeprecated store e).result = .ok c ∧
      ((handleRotateCommand maxDeprecated store e).store).current.secret
        ≠ store.current.secret ∧
      GetSecret (handleRotateCommand maxDeprecated store e).store
        = .ok ((handleRotateCommand maxDeprecated store e).store).current.secret ∧
      DecryptSecret c store.current.secret
        = .ok ((handleRotateCommand maxDeprecated store e).store).current.secret := by
  have hres := rotate_result_eq maxDeprecated store e bs nonce h1 h2 h3
  have hstore := rotate_store_eq maxDeprecated store e bs nonce h1 h2
  have hne : b64encode bs ≠ [] := by
    refine b64encode_ne_nil bs ?_
    intro hnil
    rw [hnil] at hbslen
    simp at hbslen
  refine ⟨_, hres, ?_, ?_, ?_⟩
  · rw [hstore]
    exact hfresh
  · rw [hstore]
    unfold GetSecret
    simp [hne]
  · rw [hstore]
    exact DecryptSecret_encrypted (b64encode bs) store.current.secret nonce
      (b64encode_valid bs hbs) hn hnlen

theorem rotation_changes_current_and_recovers_witness :
    ∃ c, (handleRotateCommand 5 wStore wEnv).result = .ok c ∧
      ((handleRotateCommand 5 wStore wEnv).store).current.secret
        ≠ wStore.current.secret ∧
      GetSecret (handleRotateCommand 5 wStore wEnv).store
        = .ok ((handleRotateCommand 5 wStore wEnv).store).current.secret ∧
      DecryptSecret
        ((handleRotateCommand 5 wStore wEnv).result.toOption.getD [])
        wStore.current.secret
        = .ok ((handleRotateCommand 5 wStore wEnv).store).current.secret := by
  obtain ⟨c, hc, hne, hget, hdec⟩ :=
    rotation_changes_current_and_recovers 5 wStore wEnv wBytes wNonce rfl rfl rfl
      (by decide) (by decide) (by decide) (by decide) (by decide)
  exact ⟨c, hc, hne, hget, by rw [hc]; exact hdec⟩

/-- C2: for all plaintext byte strings `s` and key byte strings `k`
(including the empty string; Go strings are arbitrary byte sequences, so
unicode and very long strings are particular byte sequences), decrypting the
result of `EncryptSecret s k` with key `k` succeeds and returns `s`.  The
fresh nonce draw is an explicit input: any 12-byte nonce. -/
theorem encrypt_decrypt_roundtrip (s k nonce : List Nat)
    (hs : ValidBytes s) (hn : ValidBytes nonce) (hnlen : nonce.length = NonceSize) :
    ∃ c, EncryptSecret s k (some nonce) = .ok c ∧ DecryptSecret c k = .ok s :=
  ⟨_, rfl, DecryptSecret_encrypted s k nonce hs hn hnlen⟩

theorem encrypt_decrypt_roundtrip_witness :
    ∃ c, EncryptSecret [104, 105] [] (some wNonce) = .ok c ∧
      DecryptSecret c [] = .ok [104, 105] :=
  encrypt_decrypt_roundtrip [104, 105] [] wNonce (by decide) (by decide) (by decide)

/-- C3: starting from a store with an empty deprecated list, performing
`N = envs.length` successful rotations with limit `M = maxDeprecated < N`
leaves exactly `M` deprecated entries, and they are the `M` most recently
retired entries in retirement order (the oldest of the retired sequence were
evicted first). -/
theorem bounded_deprecation_fifo (maxDeprecated : Nat) (store : SecretStore)
    (envs : List RotateEnv)
    (hfresh : store.deprecated = [])
    (hok : ∀ e ∈ envs, envOk e = true)
    (hlt : maxDeprecated < envs.length) :
    (rotateMany maxDeprecated store envs).deprecated
      = (retiredEntries maxDeprecated store envs).drop (envs.length - maxDeprecated) ∧
    (rotateMany maxDeprecated store envs).deprecated.length = maxDeprecated := by
  have h := rotateMany_deprecated maxDeprecated envs store hok (by simp [hfresh])
  rw [hfresh] at h
  simp only [List.nil_append] at h
  constructor
  · rw [h]
    unfold lastN
    rw [retiredEntries_length]
  · rw [h]
    unfold lastN
    simp only [List.length_drop, retiredEntries_length]
    omega

theorem bounded_deprecation_fifo_witness :
    (rotateMany 1 wStore [wEnv, wEnv2]).deprecated
      = (retiredEntries 1 wStore [wEnv, wEnv2]).drop 1 ∧
    (rotateMany 1 wStore [wEnv, wEnv2]).deprecated.length = 1 :=
  bounded_deprecation_fifo 1 wStore [wEnv, wEnv2] rfl (by decide) (by decide)

/-- C4 counterexample: the claim "every store state reachable after
initialization has at most `max_deprecated` deprecated entries" is false for
the load path.  `loadFromFile` validates only that the current secret is
non-empty and never truncates, so a persistence file holding two deprecated
entries (for example one written by a previous run configured with a larger
limit) loads — with configured limit 1 — into a state with two deprecated
entries. -/
theorem deprecated_bound_violated_by_load :
    Reachable 1 overfullStore ∧ ¬ overfullStore.deprecated.length ≤ 1 :=
  ⟨Reachable.loaded overfullStore overfullStore rfl, by decide⟩

/-- C4 (amended): a freshly created store has an empty deprecated list, and
every rotation preserves the bound `deprecated.length ≤ max_deprecated`; the
bound therefore holds in every state reached from fresh creation by
rotations.  Loading from a file does not establish it: `loadFromFile` accepts
any parsed store with a non-empty current secret. -/
theorem deprecated_bound_fresh_and_preserved :
    (∀ (r : Option (List Nat)) (id now : Nat) (s : SecretStore),
        createInitialSecret r id now = .ok s → s.deprecated.length = 0) ∧
    (∀ (maxDeprecated : Nat) (store : SecretStore) (e : RotateEnv),
        store.deprecated.length ≤ maxDeprecated →
        ((handleRotateCommand maxDeprecated store e).store).deprecated.length
          ≤ maxDeprecated) := by
  constructor
  · intro r id now s h
    obtain ⟨bs, _, rfl⟩ := createInitial_eq r id now s h
    rfl
  · intro maxDeprecated store e h
    exact rotate_dep_le maxDeprecated store e h

theorem deprecated_bound_fresh_and_preserved_witness :
    ((handleRotateCommand 1 wStore wEnv).store).deprecated.length ≤ 1 :=
  deprecated_bound_fresh_and_preserved.2 1 wStore wEnv (by decide)

/-- C5 counterexample: the claim "in every reachable state every deprecated
entry has `rotated_at` set and the current entry never has it set" is false
for the load path: `loadFromFile` validates only current-secret
non-emptiness, so a file whose current entry carries `rotated_at` and whose
deprecated entry lacks it loads into a state violating both parts. -/
theorem rotatedAt_invariant_violated_by_load :
    Reachable 5 loadedBadStore ∧ ¬ EntriesInv loadedBadStore :=
  ⟨Reachable.loaded loadedBadStore loadedBadStore rfl, by decide⟩

/-- C5 (amended): a freshly created store satisfies the `rotated_at`
invariant (current entry unstamped, all deprecated entries stamped), and
every rotation preserves it; loading establishes it only if the file already
satisfies it, since `loadFromFile` performs no `rotated_at` validation. -/
theorem rotatedAt_invariant_fresh_and_preserved :
    (∀ (r : Option (List Nat)) (id now : Nat) (s : SecretStore),
        createInitialSecret r id now = .ok s → EntriesInv s) ∧
    (∀ (maxDeprecated : Nat) (store : SecretStore) (e : RotateEnv),
        EntriesInv store → EntriesInv (handleRotateCommand maxDeprecated store e).store) := by
  constructor
  · intro r id now s h
    obtain ⟨bs, _, rfl⟩ := createInitial_eq r id now s h
    exact ⟨rfl, by intro en hen; simp at hen⟩
  · intro maxDeprecated store e h
    exact rotate_entries_inv maxDeprecated store e h

theorem rotatedAt_invariant_fresh_and_preserved_witness :
    EntriesInv (handleRotateCommand 5 wStore wEnv).store :=
  rotatedAt_invariant_fresh_and_preserved.2 5 wStore wEnv (by decide)

/-- C6: if secret generation fails or encryption fails (the nonce draw
fails), `handleRotateCommand` returns an error, the in-memory store is
exactly unchanged, and nothing is written to the file. -/
theorem rotation_aborts_unchanged_on_crypto_failure
    (maxDeprecated : Nat) (store : SecretStore) (e : RotateEnv)
    (h : e.randBytes = none ∨ e.nonceBytes = none) :
    (handleRotateCommand maxDeprecated store e).store = store ∧
    (handleRotateCommand maxDeprecated store e).persisted = none ∧
    ∃ msg, (handleRotateCommand maxDeprecated store e).result = .error msg := by
  rcases hg : e.randBytes with _ | bs
  · rw [rotate_gen_fail maxDeprecated store e hg]
    exact ⟨rfl, rfl, _, rfl⟩
  · rcases h with h | h
    · rw [hg] at h
      exact absurd h (by simp)
    · rw [rotate_enc_fail maxDeprecated store e bs hg h]
      exact ⟨rfl, rfl, _, rfl⟩

theorem rotation_aborts_unchanged_on_crypto_failure_witness :
    (handleRotateCommand 5 wStore wEnvGenFail).store = wStore ∧
    (handleRotateCommand 5 wStore wEnvGenFail).persisted = none ∧
    ∃ msg, (handleRotateCommand 5 wStore wEnvGenFail).result = .error msg :=
  rotation_aborts_unchanged_on_crypto_failure 5 wStore wEnvGenFail (Or.inl rfl)

/-- C7: if the file write fails after the in-memory mutation,
`handleRotateCommand` returns the persistence error while the in-memory store
remains mutated: the freshly generated secret is current in memory, the
retired old entry is the most recent deprecated entry, and nothing was
written to disk.  `maxDeprecated ≥ 1` holds for every constructed provider
(the constructor replaces non-positive configurations by 5). -/
theorem rotation_save_failure_leaves_memory_mutated
    (maxDeprecated : Nat) (store : SecretStore) (e : RotateEnv) (bs nonce : List Nat)
    (h1 : e.randBytes = some bs) (h2 : e.nonceBytes = some nonce)
    (h3 : e.saveOk = false) (hmax : 1 ≤ maxDeprecated) :
    (handleRotateCommand maxDeprecated store e).result
      = .error ("failed to save rotated secrets") ∧
    (handleRotateCommand maxDeprecated store e).persisted = none ∧
    ((handleRotateCommand maxDeprecated store e).store).current.secret
      = b64encode bs ∧
    ((handleRotateCommand maxDeprecated store e).store).deprecated.getLast?
      = some { store.current with rotatedAt := some e.now } := by
  obtain ⟨hpers, hres⟩ := rotate_save_fail maxDeprecated store e bs nonce h1 h2 h3
  have hstore := rotate_store_eq maxDeprecated store e bs nonce h1 h2
  refine ⟨hres, hpers, ?_, ?_⟩
  · rw [hstore]
  · rw [hstore]
    exact getLast?_lastN maxDeprecated hmax _ _

theorem rotation_save_failure_leaves_memory_mutated_witness :
    (handleRotateCommand 5 wStore wEnvNoSave).result
      = .error ("failed to save rotated secrets") ∧
    (handleRotateCommand 5 wStore wEnvNoSave).persisted = none ∧
    ((handleRotateCommand 5 wStore wEnvNoSave).store).current.secret
      = b64encode wBytes ∧
    ((handleRotateCommand 5 wStore wEnvNoSave).store).deprecated.getLast?
      = some { wStore.current with rotatedAt := some wEnvNoSave.now } :=
  rotation_save_failure_leaves_memory_mutated 5 wStore wEnvNoSave wBytes wNonce
    rfl rfl rfl (by decide)

/-- C10: `GetAllSecrets` never returns an error: for every store state it
returns the current secret string and the deprecated secret strings with a
`nil` error — including the state with an empty current secret, exactly where
`GetSecret` fails with `no active secret available`. -/
theorem getAllSecrets_never_errors :
    (∀ store : SecretStore,
      GetAllSecrets store
        = (store.current.secret, store.deprecated.map SecretEntry.secret, none)) ∧
    GetSecret emptySecretStore = .error ("no active secret available") ∧
    (GetAllSecrets emptySecretStore).2.2 = none :=
  ⟨fun _ => rfl, rfl, rfl⟩

/-- C8: per-line contract of the TCP server.  A non-empty line that fails
JSON parsing and is not `rotate` case-insensitively produces the
`Invalid command format` failure response; a parsed command (or the bare
fallback) whose action lower-cases to `rotate` dispatches the injected
handler, producing success with the ciphertext or failure with the handler's
message; any other action `a` produces `Unknown command: a` with the
original-case action; and the connection processes every line independently
(responses for concatenated line sequences concatenate), so a bad command
leaves the connection usable. -/
theorem tcp_line_protocol_contract :
    (∀ (line : String) (hr : Except String String),
        line ≠ ("") → lowerString line ≠ ("rotate") →
        processLine line none hr
          = some { success := false, encryptedData := ""
                   error := ("Invalid command format") }) ∧
    (∀ (line : String) (cmd : RotationCommand) (d : String),
        line ≠ ("") → lowerString cmd.action = ("rotate") →
        processLine line (some cmd) (.ok d)
          = some { success := true, encryptedData := d, error := "" }) ∧
    (∀ (line : String) (cmd : RotationCommand) (msg : String),
        line ≠ ("") → lowerString cmd.action = ("rotate") →
        processLine line (some cmd) (.error msg)
          = some { success := false, encryptedData := "", error := msg }) ∧
    (∀ (line : String) (hr : Except String String),
        line ≠ ("") → lowerString line = ("rotate") →
        processLine line none hr
          = some (handleCommand hr { action := ("rotate") })) ∧
    (∀ (line : String) (cmd : RotationCommand) (hr : Except String String),
        line ≠ ("") → lowerString cmd.action ≠ ("rotate") →
        processLine line (some cmd) hr
          = some { success := false, encryptedData := ""
                   error := ("Unknown command: ") ++ cmd.action }) ∧
    (∀ items1 items2,
        connectionResponses (items1 ++ items2)
          = connectionResponses items1 ++ connectionResponses items2) := by
  refine ⟨?_, ?_, ?_, ?_, ?_, ?_⟩
  · intro line hr hne hnrot
    simp [processLine, hne, hnrot]
  · intro line cmd d hne hrot
    simp [processLine, handleCommand, hne, hrot]
  · intro line cmd msg hne hrot
    simp [processLine, handleCommand, hne, hrot]
  · intro line hr hne hrot
    simp [processLine, hne, hrot]
  · intro line cmd hr hne hnrot
    simp [processLine, handleCommand, hne, hnrot]
  · intro items1 items2
    simp [connectionResponses]

theorem tcp_line_protocol_contract_witness :
    processLine ("not json") none (.ok ("ct"))
      = some { success := false, encryptedData := ""
               error := ("Invalid command format") } ∧
    processLine ("ROTATE") none (.ok ("ct"))
      = some (handleCommand (.ok ("ct")) { action := ("rotate") }) ∧
    processLine ("{}") (some { action := ("Rotate") }) (.ok ("ct"))
      = some { success := true, encryptedData := ("ct"), error := "" } ∧
    processLine ("{}") (some { action := ("status") }) (.ok ("ct"))
      = some { success := false, encryptedData := ""
               error := ("Unknown command: ") ++ ("status") } ∧
    connectionResponses ([(("not json"), none, .ok ("ct"))]
        ++ [(("rotate"), none, .ok ("ct"))])
      = connectionResponses [(("not json"), none, .ok ("ct"))]
        ++ connectionResponses [(("rotate"), none, .ok ("ct"))] := by
  refine ⟨?_, ?_, ?_, ?_, ?_⟩
  · exact tcp_line_protocol_contract.1 ("not json") (.ok ("ct"))
      (by decide) (by decide)
  · exact tcp_line_protocol_contract.2.2.2.1 ("ROTATE") (.ok ("ct"))
      (by decide) (by decide)
  · exact tcp_line_protocol_contract.2.1 ("{}") { action := ("Rotate") } ("ct")
      (by decide) (by decide)
  · exact tcp_line_protocol_contract.2.2.2.2.1 ("{}") { action := ("status") }
      (.ok ("ct")) (by decide) (by decide)
  · exact tcp_line_protocol_contract.2.2.2.2.2
      [(("not json"), none, .ok ("ct"))] [(("rotate"), none, .ok ("ct"))]
